import Mathlib

/-!
Verification of the acct-recon reconciliation engine against its design
notes. The TypeScript sources are shallowly embedded: JS strings become
String, nullable values become Option, promise-returning truth-source
calls become oracle functions returning Except (rejection = .error),
and JS Date objects are represented by their YYYY-MM-DD day string.
Each definition mirrors one function of the source; comments name the
source function being embedded.
-/

/-! ## JavaScript value helpers -/

/-- JS truthiness of a nullable string: null/undefined and "" are falsy. -/
def jsTruthyO : Option String → Bool
  | none => false
  | some s => s != ""

/-- JS `a || b` on nullable strings (falsy left operand selects b). -/
def jsOrO (a b : Option String) : Option String :=
  if jsTruthyO a then a else b

/-- JS `a || d` where the result is used as a plain string. -/
def jsOrStr (a : Option String) (d : String) : String :=
  if jsTruthyO a then a.getD d else d

/-- JS `a ?? b` (nullish coalescing: only null/undefined select b). -/
def jsNullish (a b : Option String) : Option String :=
  match a with
  | some x => some x
  | none => b

/-- The characters the JS regex class \s matches in the ASCII range. -/
def isJsWs (c : Char) : Bool :=
  c == ' ' || c == '\t' || c == '\n' || c == '\r' ||
  c == Char.ofNat 11 || c == Char.ofNat 12

/-- JS String.prototype.trim in the ASCII range: whitespace dropped
from both ends. -/
def strTrim (s : String) : String :=
  String.mk (((s.data.dropWhile isJsWs).reverse.dropWhile isJsWs).reverse)

/-- JS toLowerCase in the ASCII range. -/
def jsToLower (s : String) : String := String.mk (s.data.map Char.toLower)

/-- Join a list of strings with a separator, as Array.join does. -/
def strJoin (sep : String) : List String → String
  | [] => ""
  | [x] => x
  | x :: xs => x ++ sep ++ strJoin sep xs

namespace Recon

/-!
## Cross-file precedence merge
Embedding of src/app/api/reconcile/route.ts (the PO + ShipDocs + UPS
variant): `normTracking`, the alias tables, `pickFirst`,
`findUpsInString`, `fallbackTrackingFromAnyCell`, `parseUploadToRows`
and `reconcileByTrackingPreferPO`.
-/

inductive SourceMode where
  | PO
  | ShipDocs
  | UPS
deriving DecidableEq, Repr

structure UploadRow where
  row : Nat
  tracking : Option String
  poNumber : Option String
  shipDocNumber : Option String
  vendor : Option String
  customer : Option String
  date : Option String
  sourceMode : SourceMode
deriving DecidableEq, Repr

structure DetailRow where
  row : String
  sourceMode : String
  chosenMode : String
  orderNumber : String
  partyUpload : Option String
  trackingUpload : String
  assertedDate : Option String
  verdict : String
  reason : String
  dayDelta : Option Int
  poVerdict : Option String
  shipVerdict : Option String
deriving DecidableEq, Repr

/-- Embeds `normTracking` on a plain string:
`s.replace(/[^A-Za-z0-9]/g, "").toUpperCase()`. -/
def normTrackingStr (s : String) : String :=
  String.mk ((s.data.filter Char.isAlphanum).map Char.toUpper)

/-- Embeds `normTracking(s)`: empty for null/undefined/"" input. -/
def normTracking (s : Option String) : String :=
  match s with
  | none => ""
  | some t => normTrackingStr t

/-- The grouping key of a row: `normTracking(r.tracking || "")`. -/
def keyOf (r : UploadRow) : String := normTracking r.tracking

/-- Embeds the expression (r.date || ""), the string the tie-break sort compares. -/
def dateKey (r : UploadRow) : String := r.date.getD ""

/-- Strict lexicographic order on character lists, the order
`localeCompare` induces on the normalized yyyy-mm-dd date strings the
sort compares (plain code-point comparison on ASCII). -/
def charsLt : List Char → List Char → Bool
  | _, [] => false
  | [], _ :: _ => true
  | a :: as, b :: bs => if a < b then true else if b < a then false else charsLt as bs

/-- Embeds `a.localeCompare(b) < 0` on date-key strings. -/
def strLt (a b : String) : Bool := charsLt a.data b.data

/-- The first element of the rows sorted by
`(a.date || "").localeCompare(b.date || "")`: JS sort is stable, so
this is the first row attaining the smallest date key. -/
def pickEarliest (l : List UploadRow) : Option UploadRow :=
  match l with
  | [] => none
  | r :: rs => some (rs.foldl (fun best c => if strLt (dateKey c) (dateKey best) then c else best) r)

/-- Embeds `bucket.xs?.find(u => !!u.date)?.date`: the date of the first row in
the slot that carries a truthy date. -/
def firstDate (l : List UploadRow) : Option String :=
  match l.find? (fun r => jsTruthyO r.date) with
  | some r => r.date
  | none => none

/-- The PO slot of the tracking bucket keyed `k`: rows are appended in
the order `poRows.forEach(add); shipRows.forEach(add); upsRows.forEach(add)`
processes them, so the slot is a filter of the concatenated input. -/
def grpPO (all : List UploadRow) (k : String) : List UploadRow :=
  all.filter (fun r => decide (keyOf r = k ∧ r.sourceMode = SourceMode.PO))

/-- The ShipDocs slot of the tracking bucket keyed `k`. -/
def grpShip (all : List UploadRow) (k : String) : List UploadRow :=
  all.filter (fun r => decide (keyOf r = k ∧ r.sourceMode = SourceMode.ShipDocs))

/-- The UPS slot of the tracking bucket keyed `k` (the `else` arm of
`add`, which takes every mode that is neither PO nor ShipDocs). -/
def grpUPS (all : List UploadRow) (k : String) : List UploadRow :=
  all.filter (fun r => decide (keyOf r = k ∧ r.sourceMode = SourceMode.UPS))

/-- The DetailRow pushed for a bucket whose PO slot won, `pick` being
the tie-broken representative. -/
def mkPODetail (all : List UploadRow) (k : String) (pick : UploadRow) : DetailRow :=
  { row := "trk:" ++ k
  , sourceMode := "PO-file"
  , chosenMode := "PO"
  , orderNumber := jsOrStr pick.poNumber "(missing PO#)"
  , partyUpload := jsOrO pick.vendor (jsOrO pick.customer none)
  , trackingUpload := k
  , assertedDate := jsOrO pick.date (jsOrO (firstDate (grpUPS all k)) (jsOrO (firstDate (grpShip all k)) none))
  , verdict := "MATCH_PO"
  , reason := "Tracking appears on PO; ShipDocs/UPS duplicates suppressed"
  , dayDelta := none
  , poVerdict := some "match"
  , shipVerdict := none }

/-- The DetailRow pushed for a bucket whose ShipDocs slot won. -/
def mkShipDetail (all : List UploadRow) (k : String) (pick : UploadRow) : DetailRow :=
  { row := "trk:" ++ k
  , sourceMode := "ShipDocs-file"
  , chosenMode := "ShipDocs"
  , orderNumber := jsOrStr pick.shipDocNumber "(missing ShipDoc#)"
  , partyUpload := jsOrO pick.customer (jsOrO pick.vendor none)
  , trackingUpload := k
  , assertedDate := jsOrO pick.date (jsOrO (firstDate (grpUPS all k)) none)
  , verdict := "MATCH_SHIPDOCS"
  , reason := "Tracking appears on ShipDocs; no PO found for this tracking"
  , dayDelta := none
  , poVerdict := none
  , shipVerdict := some "match" }

/-- The DetailRow pushed for a UPS-only bucket. -/
def mkUPSDetail (k : String) (u : UploadRow) : DetailRow :=
  { row := "trk:" ++ k
  , sourceMode := "UPS-file"
  , chosenMode := "UPS"
  , orderNumber := ""
  , partyUpload := jsOrO u.customer (jsOrO u.vendor none)
  , trackingUpload := k
  , assertedDate := jsOrO u.date none
  , verdict := "UNMATCHED_UPS"
  , reason := "Tracking not found on PO or ShipDocs"
  , dayDelta := none
  , poVerdict := none
  , shipVerdict := none }

/-- The body of the `for (const [k, bucket] of byTracking.entries())`
loop: PO slot first, else ShipDocs, else UPS (a slot is non-empty iff
its tie-break pick exists). -/
def emitForKey (all : List UploadRow) (k : String) : Option DetailRow :=
  match pickEarliest (grpPO all k) with
  | some pick => some (mkPODetail all k pick)
  | none =>
    match pickEarliest (grpShip all k) with
    | some pick => some (mkShipDetail all k pick)
    | none =>
      match pickEarliest (grpUPS all k) with
      | some u => some (mkUPSDetail k u)
      | none => none

/-- Insertion-order deduplication, as a JS Map keyed by first insertion. -/
def dedupFirstAux (seen : List String) : List String → List String
  | [] => []
  | x :: xs => if x ∈ seen then dedupFirstAux seen xs else x :: dedupFirstAux (x :: seen) xs

def dedupFirst (l : List String) : List String := dedupFirstAux [] l

/-- The keys of `byTracking` in iteration order: first appearance of
each non-empty normalized tracking over all rows (`add` returns early
on a falsy key). -/
def keysInOrder (all : List UploadRow) : List String :=
  dedupFirst ((all.map keyOf).filter (fun s => s != ""))

/-- Embeds `reconcileByTrackingPreferPO(poRows, shipRows, upsRows)`. -/
def reconcileByTrackingPreferPO (poRows shipRows upsRows : List UploadRow) : List DetailRow :=
  (keysInOrder (poRows ++ shipRows ++ upsRows)).filterMap
    (emitForKey (poRows ++ shipRows ++ upsRows))

/-- The group the emitted DetailRow's representative is drawn from,
following the same precedence the loop applies. -/
def winningGroup (all : List UploadRow) (k : String) : List UploadRow :=
  if grpPO all k ≠ [] then grpPO all k
  else if grpShip all k ≠ [] then grpShip all k
  else grpUPS all k

/-!
### The cross-file variant's parser (`parseUploadToRows`)
A raw spreadsheet row is an association list of header to cell text; a
JS object keeps the last value written for a duplicated key, so lookups
take the last matching entry.
-/

/-- A raw parsed row: header/cell pairs as `sheet_to_json` yields them. -/
abbrev RawRow : Type := List (String × String)

/-- JS property read `obj[k]` on an object built by successive
assignment: the last entry for the key wins. -/
def objGet (row : RawRow) (k : String) : Option String :=
  ((row.filter (fun p => p.1 == k)).getLast?).map (fun p => p.2)

/-- Embeds `lcKeyed(obj)`: every key trimmed and lower-cased. -/
def lcKeyed (row : RawRow) : RawRow :=
  row.map (fun p => (jsToLower (strTrim p.1), p.2))

/-- Embeds `pickFirst(obj, keys)`: the first alias whose cell is neither
null/undefined nor the empty string. -/
def pickFirst (row : RawRow) : List String → Option String
  | [] => none
  | k :: ks =>
    match objGet row k with
    | some v => if v == "" then pickFirst row ks else some v
    | none => pickFirst row ks

def trackingAliases : List String :=
  ["tracking", "tracking#", "tracking number", "trackingnumber", "ups tracking", "ups",
   "trk", "awb", "carrier tracking", "carrier tracking number", "package tracking number",
   "shipment tracking", "shipment tracking number", "tracking no.", "tracking id"]

def poAliases : List String :=
  ["po", "po#", "po number", "ponumber", "purchase order", "purchase order number",
   "purchase order #", "purchaseorder", "purchase order id", "po id"]

def shipDocAliases : List String :=
  ["shipdoc", "ship doc", "ship doc#", "shipment doc", "shipdoc number",
   "ship doc number", "shipdoc#", "ship document", "shipment document",
   "so", "so#", "sales order", "sales order number", "sales order #", "salesorder",
   "document number", "doc number", "doc#", "document#", "shipdoc id", "ship doc id"]

def vendorAliases : List String := ["vendor", "supplier", "from", "vendor name"]

def customerAliases : List String :=
  ["customer", "bill to", "sold to", "ship to", "client", "customer name"]

def dateAliases : List String :=
  ["date", "transaction date", "post date", "posted date", "shipment date", "ship date",
   "invoice date"]

/-- The leftmost match of `/1Z[0-9A-Z]{16,}/i` in a character list:
a 1, a z of either case, then a greedy run of at least 16
alphanumerics. -/
def findUpsRun : List Char → Option (List Char)
  | [] => none
  | c1 :: rest =>
    match rest with
    | [] => none
    | c2 :: rest2 =>
      if c1 == '1' && (c2 == 'z' || c2 == 'Z') then
        let run := rest2.takeWhile Char.isAlphanum
        if decide (16 ≤ run.length) then some (c1 :: c2 :: run)
        else findUpsRun rest
      else findUpsRun rest

/-- The whole-string test `/^1Z[0-9A-Z]{16,}$/i`. -/
def upsFullTest (s : String) : Bool :=
  match s.data with
  | c1 :: c2 :: rest =>
    c1 == '1' && (c2 == 'z' || c2 == 'Z') && decide (16 ≤ rest.length) &&
      rest.all Char.isAlphanum
  | _ => false

/-- Embeds `findUpsInString(s)`: a direct 1Z match first, then the same tests
on the string squeezed of non-alphanumerics. -/
def findUpsInString (s : String) : Option String :=
  if s == "" then none
  else
    match findUpsRun s.data with
    | some cs => some (normTrackingStr (String.mk cs))
    | none =>
      let squeezed := String.mk (s.data.filter Char.isAlphanum)
      if upsFullTest squeezed then some (String.mk (squeezed.data.map Char.toUpper))
      else
        match findUpsRun squeezed.data with
        | some cs => some (String.mk (cs.map Char.toUpper))
        | none => none

/-- Embeds `fallbackTrackingFromAnyCell(rawLower)`: scan every cell value in
insertion order for a plausible UPS token. -/
def fallbackTrackingFromAnyCell (row : RawRow) : Option String :=
  (row.map (fun p => p.2)).findSome? findUpsInString

/-- One iteration of the `parseUploadToRows` loop. `dparse` is the
oracle standing for the JS date machinery (`toISODateOrNull` plus the
`isDateLike`/`new Date` fallback, both of which bottom out in the
environment's Date parser); it maps a cell's text to a normalized
yyyy-mm-dd string or null. -/
def parseRowAt (dparse : String → Option String) (sourceMode : SourceMode)
    (i : Nat) (raw : RawRow) : UploadRow :=
  let rawLower := lcKeyed raw
  let trackingRaw := pickFirst rawLower trackingAliases
  let t1 : Option String := trackingRaw.map strTrim
  let t2 : Option String := if jsTruthyO t1 then t1 else fallbackTrackingFromAnyCell rawLower
  let tracking : Option String :=
    if jsTruthyO t2 then some (normTrackingStr (t2.getD "")) else t2
  let poRaw := pickFirst rawLower poAliases
  let shipDocRaw := pickFirst rawLower shipDocAliases
  let vendorRaw := pickFirst rawLower vendorAliases
  let customerRaw := pickFirst rawLower customerAliases
  let dateRaw := pickFirst rawLower dateAliases
  let date : Option String :=
    match dateRaw with
    | some v => dparse v
    | none => none
  { row := i + 1
  , tracking := tracking
  , poNumber := poRaw.map strTrim
  , shipDocNumber := shipDocRaw.map strTrim
  , vendor := vendorRaw.map strTrim
  , customer := customerRaw.map strTrim
  , date := date
  , sourceMode := sourceMode }

/-- The indexed loop of `parseUploadToRows`: every input row yields an
output row, whatever fields it has. -/
def parseUploadAux (dparse : String → Option String) (sourceMode : SourceMode)
    (i : Nat) : List RawRow → List UploadRow
  | [] => []
  | raw :: rest => parseRowAt dparse sourceMode i raw :: parseUploadAux dparse sourceMode (i + 1) rest

/-- Embeds `parseUploadToRows(file, sourceMode)` after the spreadsheet reader
produced `rows`. -/
def parseUploadToRows (dparse : String → Option String) (rows : List RawRow)
    (sourceMode : SourceMode) : List UploadRow :=
  parseUploadAux dparse sourceMode 0 rows

end Recon

namespace Verify

/-!
## Truth-source verification route
Embedding of the PO/SO route (`reconcileOne`, `SCORE`, the POST loop)
together with `extractPackages` of src/lib/ot.ts. The truth-source
calls `getOrder`, `getActivity` and `findByTracking` are promises
against an external system; they are modelled as oracle fields of
`OTClient` returning `Except String (Option _)` — `.error` is a
rejected promise, `.ok none` a resolution to null/undefined.
`findByTracking` and `extractParty` are imported from lib/ot but are
not in the provided sources, so they stay abstract oracle fields.
-/

/-- One entry of `activity.docs[...].packages`. -/
structure RawPackage where
  trackingNumber : Option String
  tracking : Option String
deriving DecidableEq, Repr

/-- One entry of `activity.docs`. -/
structure RawDoc where
  date : Option String
  shipDate : Option String
  receiptDate : Option String
  packages : List RawPackage
deriving DecidableEq, Repr

/-- The activity payload `extractPackages` consumes. -/
structure Activity where
  docs : List RawDoc
deriving DecidableEq, Repr

/-- A package as `extractPackages` emits it. -/
structure OTPackage where
  tracking : String
  date : Option String
deriving DecidableEq, Repr

/-- The chain toUpperCase then a global replace of the class \s and
the hyphen by nothing: upper-case, then drop whitespace and hyphens —
nothing else. -/
def upperStripWsHyphen (s : String) : String :=
  String.mk ((s.data.map Char.toUpper).filter (fun c => !(isJsWs c || c == '-')))

/-- Embeds `extractPackages(activity)` of src/lib/ot.ts: per doc the date is
`doc.date ?? doc.shipDate ?? doc.receiptDate ?? null`; a package is
kept when its normalized tracking is non-empty. -/
def extractPackages (activity : Option Activity) : List OTPackage :=
  match activity with
  | none => []
  | some act =>
    act.docs.flatMap (fun doc =>
      let date := jsNullish doc.date (jsNullish doc.shipDate doc.receiptDate)
      doc.packages.filterMap (fun p =>
        let t := upperStripWsHyphen ((jsNullish p.trackingNumber p.tracking).getD "")
        if t == "" then none else some { tracking := t, date := date }))

/-- The order record `getOrder` resolves to. -/
structure OTOrder where
  partyName : Option String
  vendorName : Option String
  customerName : Option String
deriving DecidableEq, Repr

/-- The truth-source client: each field models one promise-returning
call of lib/ot (`findByTracking` and `extractParty` are not in the
provided sources and stay abstract). -/
structure OTClient where
  getOrder : String → String → Except String (Option OTOrder)
  getActivity : String → String → Except String (Option Activity)
  findByTracking : String → String → Option String → Except String (Option Activity)
  extractParty : Option Activity → Option String

/-- Embeds `p.catch(() => null)` around a promise that resolves to a nullable
value: a rejection and a null resolution both end as null. -/
def exVal {α : Type} (e : Except String (Option α)) : Option α :=
  match e with
  | Except.ok v => v
  | Except.error _ => none

/-- One uploaded row as the route sees it (`assertedDate` stands for
the JS Date by its YYYY-MM-DD day string). -/
structure Row where
  orderNumber : Option String
  partyName : Option String
  trackingNumber : Option String
  assertedDate : Option String
  sourceMode : Option String
deriving DecidableEq, Repr

/-- What one `reconcileOne` lookup gathered before calling `decide`. -/
structure LookupState where
  orderExists : Bool
  packages : List OTPackage
  partyOT : Option String
deriving DecidableEq, Repr

/-- The input record handed to `decide`. -/
structure DecideInput where
  mode : String
  partyUpload : Option String
  trackingUpload : Option String
  assertedDate : Option String
  orderExists : Bool
  packages : List OTPackage
  partyOT : Option String
deriving DecidableEq, Repr

/-- What `decide` returns. -/
structure DecideOutput where
  verdict : String
  reason : Option String
  dayDelta : Option Int
deriving DecidableEq, Repr

/-- The value `const tracking` the tracking branch computes from
`r.trackingNumber` (upper-cased, whitespace and hyphens dropped): the
exact value handed to `findByTracking`. -/
def trackingQuery (s : String) : String := upperStripWsHyphen s

/-- The lookup phase of `reconcileOne(mode, r)`: the order branch when
`r.orderNumber` is truthy, else the tracking branch, else nothing. -/
def lookupForRow (client : OTClient) (mode : String) (r : Row) : LookupState :=
  if jsTruthyO r.orderNumber then
    let onum := r.orderNumber.getD ""
    let order := exVal (client.getOrder mode onum)
    let orderExists := order.isSome
    let partyOT :=
      match order with
      | some o => jsNullish o.partyName (jsNullish o.vendorName o.customerName)
      | none => none
    let activity := if orderExists then exVal (client.getActivity mode onum) else none
    let packages :=
      match activity with
      | some a => extractPackages (some a)
      | none => []
    { orderExists := orderExists, packages := packages, partyOT := partyOT }
  else if jsTruthyO r.trackingNumber then
    let tracking := trackingQuery (r.trackingNumber.getD "")
    let activity := exVal (client.findByTracking mode tracking r.assertedDate)
    let packages :=
      match activity with
      | some a => extractPackages (some a)
      | none => []
    let partyOT := client.extractParty activity
    { orderExists := decide (0 < packages.length), packages := packages, partyOT := partyOT }
  else
    { orderExists := false, packages := [], partyOT := none }

/-- The result one `reconcileOne` call returns. -/
structure ModeResult where
  mode : String
  verdict : String
  reason : String
  dayDelta : Option Int
deriving DecidableEq, Repr

/-- Embeds `reconcileOne(mode, r)`: run the lookup, call `decide` (a pure
function passed in, since src/lib/decide.ts is not among the provided
sources) and package the result (`reason ?? ""`, `dayDelta ?? null`). -/
def reconcileOne (client : OTClient) (dec : DecideInput → DecideOutput)
    (mode : String) (r : Row) : ModeResult :=
  let st := lookupForRow client mode r
  let ver := dec
    { mode := mode
    , partyUpload := r.partyName
    , trackingUpload := r.trackingNumber
    , assertedDate := r.assertedDate
    , orderExists := st.orderExists
    , packages := st.packages
    , partyOT := st.partyOT }
  { mode := mode, verdict := ver.verdict, reason := ver.reason.getD "", dayDelta := ver.dayDelta }

/-- Modelled from the spec: the pure decision function of
src/lib/decide.ts, whose code is not in the provided sources. Per the
spec it compares existence, party and asserted-vs-package dates and
returns NOT_FOUND when the order/tracking does not exist, OK when the
compared attributes agree, MISMATCH otherwise; the tolerance is its
own (exact-day agreement here). It receives no failure signal, so no
input reaches ERROR. -/
def decideSpec (i : DecideInput) : DecideOutput :=
  if i.orderExists then
    let dateOk :=
      match i.assertedDate with
      | none => true
      | some d => i.packages.isEmpty || i.packages.any (fun p => p.date == some d)
    let partyOk :=
      match i.partyUpload, i.partyOT with
      | some a, some b => a == b
      | _, _ => true
    if dateOk && partyOk then
      { verdict := "OK", reason := some "Order found; attributes agree", dayDelta := some 0 }
    else
      { verdict := "MISMATCH", reason := some "Order found; attributes disagree", dayDelta := none }
  else
    { verdict := "NOT_FOUND", reason := some "No matching order or tracking in OrderTime", dayDelta := none }

/-- Embeds `SCORE[verdict] ?? 0`: the rank table with the route's default of 0
for a verdict outside the table. -/
def SCORE (v : String) : Nat :=
  if v == "OK" then 3
  else if v == "MISMATCH" then 2
  else if v == "NOT_FOUND" then 1
  else if v == "ERROR" then 0
  else 0

/-- The pick of the POST loop:
`(SCORE[resOther.verdict] ?? 0) > (SCORE[resPref.verdict] ?? 0) ? resOther : resPref`. -/
def choosePick (resPref resOther : ModeResult) : ModeResult :=
  if SCORE resPref.verdict < SCORE resOther.verdict then resOther else resPref

/-- Embeds `prefer === "PO" ? "SO" : "PO"`. -/
def flipMode (m : String) : String := if m == "PO" then "SO" else "PO"

/-- The serialized detail row the route pushes (every field a concrete
JSON value; `assertedDate` is `r.assertedDate?.toISOString()?.slice(0, 10) ?? ""`,
a string in every case). -/
structure DetailTS where
  row : Nat
  sourceMode : String
  chosenMode : String
  orderNumber : String
  partyUpload : String
  trackingUpload : String
  assertedDate : String
  verdict : String
  reason : String
  dayDelta : Option Int
  poVerdict : String
  soVerdict : String
deriving DecidableEq, Repr

/-- The `details.push({...})` of the dual-file POST loop. -/
def mkDetailTS (i : Nat) (r : Row) (pick resPref resOther : ModeResult) : DetailTS :=
  { row := i + 1
  , sourceMode := r.sourceMode.getD ""
  , chosenMode := pick.mode
  , orderNumber := r.orderNumber.getD ""
  , partyUpload := r.partyName.getD ""
  , trackingUpload := r.trackingNumber.getD ""
  , assertedDate := r.assertedDate.getD ""
  , verdict := pick.verdict
  , reason := pick.reason
  , dayDelta := pick.dayDelta
  , poVerdict := if resPref.mode == "PO" then resPref.verdict else resOther.verdict
  , soVerdict := if resPref.mode == "SO" then resPref.verdict else resOther.verdict }

/-- The body of the POST loop for row `i`: evaluate the row's declared
(preferred) mode first, cross-check the other, choose the stronger. -/
def detailForRow (client : OTClient) (dec : DecideInput → DecideOutput)
    (i : Nat) (r : Row) : DetailTS :=
  let pref := r.sourceMode.getD "PO"
  let resPref := reconcileOne client dec pref r
  let resOther := reconcileOne client dec (flipMode pref) r
  mkDetailTS i r (choosePick resPref resOther) resPref resOther

/-- The indexed POST loop (the per-row try/catch never fires in the
embedding: every function here is total). -/
def reconcileRouteAux (client : OTClient) (dec : DecideInput → DecideOutput)
    (i : Nat) : List Row → List DetailTS
  | [] => []
  | r :: rs => detailForRow client dec i r :: reconcileRouteAux client dec (i + 1) rs

/-- The POST handler's details list over the parsed, tagged rows. -/
def reconcileRoute (client : OTClient) (dec : DecideInput → DecideOutput)
    (rows : List Row) : List DetailTS :=
  reconcileRouteAux client dec 0 rows

/-- The spec's words for tracking normalization, for comparison with
the code's `trackingQuery`: strip all non-alphanumerics, upper-case. -/
def specNormTracking (s : String) : String :=
  String.mk ((s.data.filter Char.isAlphanum).map Char.toUpper)

end Verify

namespace Parse

/-!
## src/lib/parse.ts — the flexible PO/ShipDocs/UPS parser
Embedding of `parseFile` from the CSV/XLSX reader's output on: header
alias resolution (`keyify`, `pickHeaders`), per-row field extraction
with the literal-key fallbacks, `extractFirstTracking`, the silent
skip of rows with no identifier, and the final zero-usable-rows error.
`parseDateLike` bottoms out in the environment's Date parser and Excel
serial arithmetic, so it is an oracle parameter mapping cell text to a
date or null.
-/

/-- The parser's output row (`_raw` dropped; the Date kept as its
day string). -/
structure UploadRow where
  orderNumber : Option String
  partyName : Option String
  trackingNumber : Option String
  assertedDate : Option String
deriving DecidableEq, Repr

/-- Embeds `norm(v)`: `(v ?? "").toString().trim()`. -/
def norm (v : Option String) : String := strTrim (v.getD "")

/-- Replace every run of whitespace by one space and trim, as the
replace of the class \s one-or-more by a single space does. -/
def collapseWs (s : String) : String :=
  strTrim (String.mk ((s.data.map (fun c => if isJsWs c then ' ' else c)).foldr
    (fun c acc => if c == ' ' && acc.head? == some ' ' then acc else c :: acc) []))

/-- Embeds `keyify(s)`: lower-case, runs of whitespace or underscores to one
space, trim. -/
def keyify (s : String) : String :=
  strTrim (String.mk (((jsToLower s).data.map (fun c => if c == '_' || isJsWs c then ' ' else c)).foldr
    (fun c acc => if c == ' ' && acc.head? == some ' ' then acc else c :: acc) []))

def ORDER_ALIASES : List String :=
  ["po number", "po #", "po no", "po no.",
   "so number", "so #", "so no", "so no.",
   "order number", "order #", "order no", "order no.", "order",
   "no.", "no",
   "document number", "document no", "document no.",
   "vendor invoice/so", "associated so",
   "invoice number", "invoice #", "invoice no", "invoice no.",
   "ship doc", "ship doc #", "ship doc no", "ship doc no.", "shipdoc",
   "shipment number", "shipment #", "shipment no", "shipment no."]

def TRACKING_ALIASES : List String :=
  ["tracking", "tracking number", "tracking #", "tracking no", "tracking no.",
   "tracking id", "tracking code", "tracking details", "tracking status",
   "shipment tracking", "ups tracking", "carrier tracking"]

def PARTY_ALIASES : List String :=
  ["vendor", "vendor name", "supplier", "supplier name",
   "customer", "customer name", "party", "sold to", "bill to", "account name"]

def DATE_ALIASES : List String :=
  ["date", "transaction date", "po promise date", "promise date",
   "ship date", "shipment date", "invoice date", "asserted date",
   "estimated delivery window", "delivery window"]

/-- Embeds `pickHeaders(headers, candidates)`: a Map from keyified header to
the real header (a later duplicate overwrites an earlier one), probed
in candidate order. -/
def pickHeaders (headers : List String) (candidates : List String) : List String :=
  candidates.filterMap (fun c => (headers.filter (fun h => keyify h == c)).getLast?)

theorem length_dropWhile_le {α : Type} (p : α → Bool) :
    ∀ l : List α, (l.dropWhile p).length ≤ l.length := by
  intro l
  induction l with
  | nil => simp
  | cons c rest ih =>
    by_cases h : p c = true
    · simpa [List.dropWhile, h] using Nat.le_succ_of_le ih
    · simp [List.dropWhile, h]

/-- Character-list segments split at every non-alphanumeric character
(the head segment collects a leading alphanumeric run; an empty
segment marks each split point). -/
def alnumRunsAux : List Char → List (List Char)
  | [] => [[]]
  | c :: rest =>
    match alnumRunsAux rest with
    | r :: rs => if Char.isAlphanum c then (c :: r) :: rs else [] :: r :: rs
    | [] => [[]]

/-- Maximal runs of alphanumerics in a character list, left to right. -/
def alnumRuns (l : List Char) : List (List Char) :=
  (alnumRunsAux l).filter (fun r => !r.isEmpty)

/-- The literal keys `extractFirstTracking` pools. -/
def trackingPoolKeys : List String :=
  ["Tracking", "Tracking Number", "Tracking No", "Tracking NO", "Tracking No.",
   "Tracking #", "Tracking Details", "Tracking Status", "UPS Tracking",
   "Carrier Tracking", "Shipment Tracking"]

/-- Embeds `extractFirstTracking(raw)`: join the pooled cells with spaces and
take the leftmost run of 10-or-more alphanumerics, upper-cased. -/
def extractFirstTracking (raw : Recon.RawRow) : Option String :=
  let pool := strJoin " "
    ((trackingPoolKeys.map (fun k => norm (Recon.objGet raw k))).filter (fun s => s != ""))
  if pool == "" then none
  else
    match (alnumRuns pool.data).find? (fun run => decide (10 ≤ run.length)) with
    | some run => some (String.mk (run.map Char.toUpper))
    | none => none

/-- One literal-key fallback step:
`if (!x && raw[key]) x = norm(raw[key])`. -/
def fallbackKey (raw : Recon.RawRow) (cur : Option String) (key : String) : Option String :=
  if jsTruthyO cur then cur
  else
    match Recon.objGet raw key with
    | some v => if v == "" then cur else some (norm (some v))
    | none => cur

/-- The first truthy value among the mapped headers:
`headers.map(h => norm(raw[h])).find(Boolean) || undefined`. -/
def firstTruthy (raw : Recon.RawRow) (headers : List String) : Option String :=
  (headers.map (fun h => norm (Recon.objGet raw h))).find? (fun s => s != "")

/-- Embeds `parseDateLike(raw[h])` through the oracle `dp` (null and "" parse
to null before the oracle is consulted). -/
def parseCellDate (dp : String → Option String) (raw : Recon.RawRow) (h : String) : Option String :=
  match Recon.objGet raw h with
  | none => none
  | some v => if v == "" then none else dp v

/-- The field extraction of the `for (const r of rows)` loop: order
number (alias headers, then the literal-key fallbacks, then whitespace
collapse), tracking (alias headers, then `extractFirstTracking`, then
upper-case), party and date. -/
def rowFields (dp : String → Option String)
    (orderHeaders trackingHeaders partyHeaders dateHeaders : List String)
    (raw : Recon.RawRow) : UploadRow :=
  let o1 := firstTruthy raw orderHeaders
  let oAll :=
    ["No.", "No", "Associated SO", "Vendor Invoice/SO", "Ship Doc No", "Ship Doc No.",
     "ShipDoc", "Shipment Number", "Shipment No", "Shipment No."].foldl
      (fun c k => fallbackKey raw c k) o1
  let orderNumber := if jsTruthyO oAll then some (collapseWs (oAll.getD "")) else oAll
  let t1 := firstTruthy raw trackingHeaders
  let t2 := if t1.isSome then t1 else extractFirstTracking raw
  let trackingNumber :=
    if jsTruthyO t2 then some (String.mk ((t2.getD "").data.map Char.toUpper)) else t2
  let partyName := firstTruthy raw partyHeaders
  let d1 := dateHeaders.findSome? (fun h => parseCellDate dp raw h)
  let assertedDate :=
    match d1 with
    | some d => some d
    | none =>
      ["PO Promise date", "Promise Date", "Ship Date", "Shipment Date", "Date",
       "Estimated Delivery Window"].findSome? (fun k => parseCellDate dp raw k)
  { orderNumber := orderNumber
  , partyName := partyName
  , trackingNumber := trackingNumber
  , assertedDate := assertedDate }

/-- The loop body: skip the row silently
(`if (!orderNumber && !trackingNumber) continue`) when neither
identifier came out truthy, else emit it. -/
def rowToUpload (dp : String → Option String)
    (orderHeaders trackingHeaders partyHeaders dateHeaders : List String)
    (raw : Recon.RawRow) : Option UploadRow :=
  let u := rowFields dp orderHeaders trackingHeaders partyHeaders dateHeaders raw
  if !(jsTruthyO u.orderNumber) && !(jsTruthyO u.trackingNumber) then none
  else some u

/-- The per-row mapper once the four header lists are resolved from
the first row's headers. -/
def rowMapper (dp : String → Option String) (headers : List String) :
    Recon.RawRow → Option UploadRow :=
  rowToUpload dp (pickHeaders headers ORDER_ALIASES) (pickHeaders headers TRACKING_ALIASES)
    (pickHeaders headers PARTY_ALIASES) (pickHeaders headers DATE_ALIASES)

/-- Embeds `parseFile` after the reader produced `rows`: empty input returns
an empty list, a run that produced no usable row throws, otherwise the
usable rows are returned in order. -/
def parseFileRows (dp : String → Option String) (rows : List Recon.RawRow) :
    Except String (List UploadRow) :=
  match rows with
  | [] => Except.ok []
  | r0 :: rest =>
    let headers := r0.map (fun p => p.1)
    let out := (r0 :: rest).filterMap (rowMapper dp headers)
    if out.isEmpty then
      Except.error ("Missing required column(s): orderNumber or trackingNumber. Found headers: "
        ++ strJoin " | " headers)
    else Except.ok out

end Parse

/-! ## Properties of the comparison and grouping combinators -/

namespace Recon

theorem charsLt_irrefl : ∀ as : List Char, charsLt as as = false := by
  intro as
  induction as with
  | nil => rfl
  | cons a as ih => simp [charsLt, ih]

theorem charsLt_trans : ∀ as bs cs : List Char,
    charsLt as bs = true → charsLt bs cs = true → charsLt as cs = true := by
  intro as
  induction as with
  | nil =>
    intro bs cs hab hbc
    cases bs with
    | nil => simp [charsLt] at hab
    | cons b bs =>
      cases cs with
      | nil => simp [charsLt] at hbc
      | cons c cs => simp [charsLt]
  | cons a as ih =>
    intro bs cs hab hbc
    cases bs with
    | nil => simp [charsLt] at hab
    | cons b bs =>
      cases cs with
      | nil => simp [charsLt] at hbc
      | cons c cs =>
        simp only [charsLt] at hab hbc ⊢
        by_cases h1 : a < b
        · by_cases h2 : b < c
          · simp [lt_trans h1 h2]
          · by_cases h3 : c < b
            · simp [h2, h3] at hbc
            · have hbc' : b = c := le_antisymm (le_of_not_lt h3) (le_of_not_lt h2)
              subst hbc'
              simp [h1]
        · by_cases h4 : b < a
          · simp [h1, h4] at hab
          · have hba : a = b := le_antisymm (le_of_not_lt h4) (le_of_not_lt h1)
            subst hba
            by_cases h2 : a < c
            · simp [h2]
            · by_cases h3 : c < a
              · simp [h2, h3] at hbc
              · simp [h1, h4] at hab
                simp [h2, h3] at hbc ⊢
                exact ih _ _ hab hbc

theorem charsLt_total : ∀ as bs : List Char,
    charsLt as bs = true ∨ as = bs ∨ charsLt bs as = true := by
  intro as
  induction as with
  | nil =>
    intro bs
    cases bs with
    | nil => right; left; rfl
    | cons b bs => left; simp [charsLt]
  | cons a as ih =>
    intro bs
    cases bs with
    | nil => right; right; simp [charsLt]
    | cons b bs =>
      rcases lt_trichotomy a b with h | h | h
      · left; simp [charsLt, h]
      · subst h
        rcases ih bs with h2 | h2 | h2
        · left; simp [charsLt, charsLt_irrefl, h2, lt_irrefl]
        · subst h2; right; left; rfl
        · right; right; simp [charsLt, h2, lt_irrefl]
      · right; right; simp [charsLt, h, not_lt_of_gt h]

theorem strLt_irrefl (a : String) : strLt a a = false := charsLt_irrefl a.data

theorem strLt_trans {a b c : String} (h1 : strLt a b = true) (h2 : strLt b c = true) :
    strLt a c = true := charsLt_trans a.data b.data c.data h1 h2

theorem strLt_total (a b : String) : strLt a b = true ∨ a = b ∨ strLt b a = true := by
  rcases charsLt_total a.data b.data with h | h | h
  · exact Or.inl h
  · refine Or.inr (Or.inl ?_)
    cases a with
    | mk d1 =>
      cases b with
      | mk d2 =>
        simp only at h
        rw [h]
  · exact Or.inr (Or.inr h)

/-- The fold of the stable-sort head stays inside the candidate pool. -/
theorem foldPick_mem : ∀ (xs : List UploadRow) (b : UploadRow),
    xs.foldl (fun best c => if strLt (dateKey c) (dateKey best) then c else best) b ∈ b :: xs := by
  intro xs
  induction xs with
  | nil => intro b; simp
  | cons a xs ih =>
    intro b
    simp only [List.foldl_cons]
    by_cases hab : strLt (dateKey a) (dateKey b) = true
    · rw [if_pos hab]
      rcases List.mem_cons.mp (ih a) with h | h
      · rw [h]
        exact List.mem_cons.mpr (Or.inr (List.mem_cons_self a xs))
      · exact List.mem_cons.mpr (Or.inr (List.mem_cons.mpr (Or.inr h)))
    · rw [if_neg hab]
      rcases List.mem_cons.mp (ih b) with h | h
      · rw [h]
        exact List.mem_cons_self b _
      · exact List.mem_cons.mpr (Or.inr (List.mem_cons.mpr (Or.inr h)))

/-- No candidate's date key is strictly below the fold's date key. -/
theorem foldPick_min : ∀ (xs : List UploadRow) (b y : UploadRow), y ∈ b :: xs →
    strLt (dateKey y)
      (dateKey (xs.foldl (fun best c => if strLt (dateKey c) (dateKey best) then c else best) b))
      = false := by
  intro xs
  induction xs with
  | nil =>
    intro b y hy
    simp at hy
    subst hy
    exact strLt_irrefl _
  | cons a xs ih =>
    intro b y hy
    simp only [List.foldl_cons]
    by_cases hab : strLt (dateKey a) (dateKey b) = true
    · rw [if_pos hab]
      rcases List.mem_cons.mp hy with h | h
      · subst h
        cases hv : strLt (dateKey y)
            (dateKey (xs.foldl (fun best c => if strLt (dateKey c) (dateKey best) then c else best) a)) with
        | false => rfl
        | true =>
          exfalso
          have hsel := ih a a (List.mem_cons_self a xs)
          have : strLt (dateKey a)
              (dateKey (xs.foldl (fun best c => if strLt (dateKey c) (dateKey best) then c else best) a))
              = true := strLt_trans hab hv
          simp [this] at hsel
      · rcases List.mem_cons.mp h with h2 | h2
        · subst h2
          exact ih y y (List.mem_cons_self y xs)
        · exact ih a y (List.mem_cons_of_mem a h2)
    · rw [if_neg hab]
      rcases List.mem_cons.mp hy with h | h
      · subst h
        exact ih y y (List.mem_cons_self y xs)
      · rcases List.mem_cons.mp h with h2 | h2
        · subst h2
          cases hv : strLt (dateKey y)
              (dateKey (xs.foldl (fun best c => if strLt (dateKey c) (dateKey best) then c else best) b)) with
          | false => rfl
          | true =>
            exfalso
            have hsel := ih b b (List.mem_cons_self b xs)
            rcases strLt_total (dateKey y) (dateKey b) with h3 | h3 | h3
            · exact hab h3
            · rw [← h3] at hsel
              simp [hv] at hsel
            · have : strLt (dateKey b)
                  (dateKey (xs.foldl (fun best c => if strLt (dateKey c) (dateKey best) then c else best) b))
                  = true := strLt_trans h3 hv
              simp [this] at hsel
        · exact ih b y (List.mem_cons_of_mem b h2)

theorem pickEarliest_mem {l : List UploadRow} {r : UploadRow}
    (h : pickEarliest l = some r) : r ∈ l := by
  cases l with
  | nil => simp [pickEarliest] at h
  | cons x xs =>
    simp only [pickEarliest, Option.some.injEq] at h
    subst h
    exact foldPick_mem xs x

theorem pickEarliest_min {l : List UploadRow} {r : UploadRow}
    (h : pickEarliest l = some r) :
    ∀ y ∈ l, strLt (dateKey y) (dateKey r) = false := by
  cases l with
  | nil => simp [pickEarliest] at h
  | cons x xs =>
    simp only [pickEarliest, Option.some.injEq] at h
    subst h
    intro y hy
    exact foldPick_min xs x y hy

theorem pickEarliest_none_iff {l : List UploadRow} : pickEarliest l = none ↔ l = [] := by
  cases l <;> simp [pickEarliest]

theorem mem_dedupFirstAux {x : String} :
    ∀ (l seen : List String), x ∈ dedupFirstAux seen l ↔ (x ∈ l ∧ x ∉ seen) := by
  intro l
  induction l with
  | nil => intro seen; simp [dedupFirstAux]
  | cons a l ih =>
    intro seen
    by_cases ha : a ∈ seen
    · simp only [dedupFirstAux, if_pos ha, ih, List.mem_cons]
      constructor
      · rintro ⟨h1, h2⟩
        exact ⟨Or.inr h1, h2⟩
      · rintro ⟨h1 | h1, h2⟩
        · subst h1; exact absurd ha h2
        · exact ⟨h1, h2⟩
    · simp only [dedupFirstAux, if_neg ha, List.mem_cons, ih]
      constructor
      · rintro (h | ⟨h1, h2⟩)
        · subst h; exact ⟨Or.inl rfl, ha⟩
        · simp at h2
          exact ⟨Or.inr h1, h2.2⟩
      · rintro ⟨h1 | h1, h2⟩
        · subst h1; exact Or.inl rfl
        · by_cases hxa : x = a
          · exact Or.inl hxa
          · exact Or.inr ⟨h1, by simp [hxa, h2]⟩

theorem mem_dedupFirst {x : String} {l : List String} : x ∈ dedupFirst l ↔ x ∈ l := by
  simp [dedupFirst, mem_dedupFirstAux]

theorem nodup_dedupFirstAux : ∀ (l seen : List String), (dedupFirstAux seen l).Nodup := by
  intro l
  induction l with
  | nil => intro seen; simp [dedupFirstAux]
  | cons a l ih =>
    intro seen
    by_cases ha : a ∈ seen
    · simpa [dedupFirstAux, if_pos ha] using ih seen
    · simp only [dedupFirstAux, if_neg ha, List.nodup_cons]
      refine ⟨?_, ih (a :: seen)⟩
      intro hmem
      exact ((mem_dedupFirstAux l (a :: seen)).mp hmem).2 (List.mem_cons_self a seen)

theorem nodup_dedupFirst (l : List String) : (dedupFirst l).Nodup :=
  nodup_dedupFirstAux l []

theorem mem_keysInOrder {k : String} {all : List UploadRow} :
    k ∈ keysInOrder all ↔ (k ≠ "" ∧ ∃ r, r ∈ all ∧ keyOf r = k) := by
  simp only [keysInOrder, mem_dedupFirst, List.mem_filter, List.mem_map]
  constructor
  · rintro ⟨⟨r, hr, hk⟩, hne⟩
    refine ⟨by simpa using hne, r, hr, hk⟩
  · rintro ⟨hne, r, hr, hk⟩
    exact ⟨⟨r, hr, hk⟩, by simpa using hne⟩

theorem mem_grpPO {all : List UploadRow} {k : String} {r : UploadRow} :
    r ∈ grpPO all k ↔ (r ∈ all ∧ keyOf r = k ∧ r.sourceMode = SourceMode.PO) := by
  simp [grpPO, List.mem_filter]

theorem mem_grpShip {all : List UploadRow} {k : String} {r : UploadRow} :
    r ∈ grpShip all k ↔ (r ∈ all ∧ keyOf r = k ∧ r.sourceMode = SourceMode.ShipDocs) := by
  simp [grpShip, List.mem_filter]

theorem mem_grpUPS {all : List UploadRow} {k : String} {r : UploadRow} :
    r ∈ grpUPS all k ↔ (r ∈ all ∧ keyOf r = k ∧ r.sourceMode = SourceMode.UPS) := by
  simp [grpUPS, List.mem_filter]

/-- A row of the pool lands in the slot its sourceMode selects. -/
theorem mem_some_grp {all : List UploadRow} {r : UploadRow}
    (hr : r ∈ all) : r ∈ grpPO all (keyOf r) ∨ r ∈ grpShip all (keyOf r) ∨ r ∈ grpUPS all (keyOf r) := by
  cases hm : r.sourceMode with
  | PO => exact Or.inl (mem_grpPO.mpr ⟨hr, rfl, hm⟩)
  | ShipDocs => exact Or.inr (Or.inl (mem_grpShip.mpr ⟨hr, rfl, hm⟩))
  | UPS => exact Or.inr (Or.inr (mem_grpUPS.mpr ⟨hr, rfl, hm⟩))

/-- The three mutually exclusive shapes an emitted DetailRow takes. -/
theorem emitForKey_cases {all : List UploadRow} {k : String} {d : DetailRow}
    (h : emitForKey all k = some d) :
    (∃ r, pickEarliest (grpPO all k) = some r ∧ d = mkPODetail all k r) ∨
    (grpPO all k = [] ∧ ∃ r, pickEarliest (grpShip all k) = some r ∧ d = mkShipDetail all k r) ∨
    (grpPO all k = [] ∧ grpShip all k = [] ∧
      ∃ r, pickEarliest (grpUPS all k) = some r ∧ d = mkUPSDetail k r) := by
  unfold emitForKey at h
  cases hpo : pickEarliest (grpPO all k) with
  | some r =>
    rw [hpo] at h
    simp at h
    exact Or.inl ⟨r, rfl, h.symm⟩
  | none =>
    rw [hpo] at h
    have hpoe : grpPO all k = [] := pickEarliest_none_iff.mp hpo
    cases hsh : pickEarliest (grpShip all k) with
    | some r =>
      rw [hsh] at h
      simp at h
      exact Or.inr (Or.inl ⟨hpoe, r, rfl, h.symm⟩)
    | none =>
      rw [hsh] at h
      have hshe : grpShip all k = [] := pickEarliest_none_iff.mp hsh
      cases hup : pickEarliest (grpUPS all k) with
      | some r =>
        rw [hup] at h
        simp at h
        exact Or.inr (Or.inr ⟨hpoe, hshe, r, rfl, h.symm⟩)
      | none =>
        rw [hup] at h
        simp at h

/-- Every emitted DetailRow carries its bucket's key. -/
theorem emitForKey_tracking {all : List UploadRow} {k : String} {d : DetailRow}
    (h : emitForKey all k = some d) : d.trackingUpload = k := by
  rcases emitForKey_cases h with ⟨r, _, hd⟩ | ⟨_, r, _, hd⟩ | ⟨_, _, r, _, hd⟩ <;>
    simp [hd, mkPODetail, mkShipDetail, mkUPSDetail]

/-- A key one of the rows carries always produces a DetailRow. -/
theorem emitForKey_isSome {all : List UploadRow} {k : String}
    (hk : ∃ r, r ∈ all ∧ keyOf r = k) : ∃ d, emitForKey all k = some d := by
  obtain ⟨r, hr, hkey⟩ := hk
  unfold emitForKey
  cases hpo : pickEarliest (grpPO all k) with
  | some p => exact ⟨mkPODetail all k p, rfl⟩
  | none =>
    cases hsh : pickEarliest (grpShip all k) with
    | some p => exact ⟨mkShipDetail all k p, rfl⟩
    | none =>
      cases hup : pickEarliest (grpUPS all k) with
      | some p => exact ⟨mkUPSDetail k p, rfl⟩
      | none =>
        exfalso
        have hpoe := pickEarliest_none_iff.mp hpo
        have hshe := pickEarliest_none_iff.mp hsh
        have hupe := pickEarliest_none_iff.mp hup
        subst hkey
        rcases mem_some_grp hr with h | h | h
        · rw [hpoe] at h; exact absurd h (List.not_mem_nil r)
        · rw [hshe] at h; exact absurd h (List.not_mem_nil r)
        · rw [hupe] at h; exact absurd h (List.not_mem_nil r)

theorem mem_reconcile {po ship ups : List UploadRow} {d : DetailRow} :
    d ∈ reconcileByTrackingPreferPO po ship ups ↔
      ∃ k, k ∈ keysInOrder (po ++ ship ++ ups) ∧ emitForKey (po ++ ship ++ ups) k = some d := by
  simp [reconcileByTrackingPreferPO, List.mem_filterMap]

theorem filterMap_map_of_total {α β : Type} (f : α → Option β) (g : β → α) :
    ∀ l : List α, (∀ x ∈ l, ∃ y, f x = some y ∧ g y = x) → (l.filterMap f).map g = l := by
  intro l
  induction l with
  | nil => intro _; rfl
  | cons a l ih =>
    intro h
    obtain ⟨y, hy, hgy⟩ := h a (List.mem_cons_self a l)
    simp only [List.filterMap_cons, hy, List.map_cons, hgy]
    rw [ih (fun x hx => h x (List.mem_cons_of_mem a hx))]

/-- The emitted tracking keys are exactly the bucket keys, in order. -/
theorem reconcile_map_tracking (po ship ups : List UploadRow) :
    (reconcileByTrackingPreferPO po ship ups).map (fun d => d.trackingUpload) =
      keysInOrder (po ++ ship ++ ups) := by
  apply filterMap_map_of_total
  intro k hk
  obtain ⟨d, hd⟩ := emitForKey_isSome (mem_keysInOrder.mp hk).2
  exact ⟨d, hd, emitForKey_tracking hd⟩

theorem nodup_keysInOrder (all : List UploadRow) : (keysInOrder all).Nodup :=
  nodup_dedupFirst _

theorem grpPO_ne_nil_iff {all : List UploadRow} {k : String} :
    grpPO all k ≠ [] ↔ ∃ r, r ∈ all ∧ keyOf r = k ∧ r.sourceMode = SourceMode.PO := by
  constructor
  · intro h
    cases hg : grpPO all k with
    | nil => exact absurd hg h
    | cons x xs =>
      exact ⟨x, mem_grpPO.mp (by rw [hg]; exact List.mem_cons_self x xs)⟩
  · rintro ⟨r, hr⟩
    exact List.ne_nil_of_mem (mem_grpPO.mpr hr)

theorem grpShip_ne_nil_iff {all : List UploadRow} {k : String} :
    grpShip all k ≠ [] ↔ ∃ r, r ∈ all ∧ keyOf r = k ∧ r.sourceMode = SourceMode.ShipDocs := by
  constructor
  · intro h
    cases hg : grpShip all k with
    | nil => exact absurd hg h
    | cons x xs =>
      exact ⟨x, mem_grpShip.mp (by rw [hg]; exact List.mem_cons_self x xs)⟩
  · rintro ⟨r, hr⟩
    exact List.ne_nil_of_mem (mem_grpShip.mpr hr)

/-- Which verdict a bucket resolves to depends only on which slots are
inhabited. -/
theorem emit_shape {all : List UploadRow} {k : String} {d : DetailRow}
    (h : emitForKey all k = some d) :
    (d.verdict = "MATCH_PO" ∧ grpPO all k ≠ []) ∨
    (d.verdict = "MATCH_SHIPDOCS" ∧ grpPO all k = [] ∧ grpShip all k ≠ []) ∨
    (d.verdict = "UNMATCHED_UPS" ∧ grpPO all k = [] ∧ grpShip all k = [] ∧ grpUPS all k ≠ []) := by
  rcases emitForKey_cases h with ⟨r, hp, hd⟩ | ⟨hpo, r, hp, hd⟩ | ⟨hpo, hsh, r, hp, hd⟩
  · refine Or.inl ⟨by simp [hd, mkPODetail], ?_⟩
    intro hnil
    rw [hnil] at hp
    simp [pickEarliest] at hp
  · refine Or.inr (Or.inl ⟨by simp [hd, mkShipDetail], hpo, ?_⟩)
    intro hnil
    rw [hnil] at hp
    simp [pickEarliest] at hp
  · refine Or.inr (Or.inr ⟨by simp [hd, mkUPSDetail], hpo, hsh, ?_⟩)
    intro hnil
    rw [hnil] at hp
    simp [pickEarliest] at hp

/-- Every emitted DetailRow is the record one of the three branches
builds from the tie-break pick of its group, keyed by the DetailRow's
own tracking. -/
theorem reconcile_detail_shape {po ship ups : List UploadRow} {d : DetailRow}
    (hd : d ∈ reconcileByTrackingPreferPO po ship ups) :
    (∃ r, pickEarliest (grpPO (po ++ ship ++ ups) d.trackingUpload) = some r ∧
       d = mkPODetail (po ++ ship ++ ups) d.trackingUpload r) ∨
    (grpPO (po ++ ship ++ ups) d.trackingUpload = [] ∧
     ∃ r, pickEarliest (grpShip (po ++ ship ++ ups) d.trackingUpload) = some r ∧
       d = mkShipDetail (po ++ ship ++ ups) d.trackingUpload r) ∨
    (grpPO (po ++ ship ++ ups) d.trackingUpload = [] ∧
     grpShip (po ++ ship ++ ups) d.trackingUpload = [] ∧
     ∃ r, pickEarliest (grpUPS (po ++ ship ++ ups) d.trackingUpload) = some r ∧
       d = mkUPSDetail d.trackingUpload r) := by
  obtain ⟨k, _, he⟩ := mem_reconcile.mp hd
  have htr : d.trackingUpload = k := emitForKey_tracking he
  rw [← htr] at he
  exact emitForKey_cases he

theorem pickEarliest_ne_none {l : List UploadRow} {r : UploadRow}
    (h : pickEarliest l = some r) : l ≠ [] := by
  intro hnil
  rw [hnil] at h
  simp [pickEarliest] at h

end Recon

/-! ## The claims -/

/-- C2: in the cross-file precedence merge, a tracking group with at
least one PO-sourced row resolves to MATCH_PO; with none but at least
one ShipDocs-sourced row, to MATCH_SHIPDOCS; with only UPS-sourced
rows, to UNMATCHED_UPS. In particular a tracking number present in
both the PO file and the ShipDocs file resolves to MATCH_PO, never
MATCH_SHIPDOCS. -/
theorem crossFile_precedence :
    ∀ (po ship ups : List Recon.UploadRow),
    (∀ r ∈ po, r.sourceMode = Recon.SourceMode.PO) →
    (∀ r ∈ ship, r.sourceMode = Recon.SourceMode.ShipDocs) →
    (∀ r ∈ ups, r.sourceMode = Recon.SourceMode.UPS) →
    (∀ d ∈ Recon.reconcileByTrackingPreferPO po ship ups,
       ((∃ r, r ∈ po ++ ship ++ ups ∧ Recon.keyOf r = d.trackingUpload ∧
           r.sourceMode = Recon.SourceMode.PO) → d.verdict = "MATCH_PO") ∧
       ((¬ ∃ r, r ∈ po ++ ship ++ ups ∧ Recon.keyOf r = d.trackingUpload ∧
           r.sourceMode = Recon.SourceMode.PO) →
        (∃ r, r ∈ po ++ ship ++ ups ∧ Recon.keyOf r = d.trackingUpload ∧
           r.sourceMode = Recon.SourceMode.ShipDocs) → d.verdict = "MATCH_SHIPDOCS") ∧
       ((¬ ∃ r, r ∈ po ++ ship ++ ups ∧ Recon.keyOf r = d.trackingUpload ∧
           r.sourceMode = Recon.SourceMode.PO) →
        (¬ ∃ r, r ∈ po ++ ship ++ ups ∧ Recon.keyOf r = d.trackingUpload ∧
           r.sourceMode = Recon.SourceMode.ShipDocs) → d.verdict = "UNMATCHED_UPS")) ∧
    (∀ k, k ≠ "" → (∃ r, r ∈ po ∧ Recon.keyOf r = k) → (∃ r, r ∈ ship ∧ Recon.keyOf r = k) →
       k ∈ (Recon.reconcileByTrackingPreferPO po ship ups).map (fun d => d.trackingUpload) ∧
       ∀ d ∈ Recon.reconcileByTrackingPreferPO po ship ups,
         d.trackingUpload = k → d.verdict = "MATCH_PO") := by
  intro po ship ups hpo hship hups
  constructor
  · intro d hd
    obtain ⟨k, _, he⟩ := Recon.mem_reconcile.mp hd
    have htr : d.trackingUpload = k := Recon.emitForKey_tracking he
    refine ⟨?_, ?_, ?_⟩
    · intro hex
      rw [htr] at hex
      rcases Recon.emit_shape he with ⟨hv, _⟩ | ⟨_, hpoe, _⟩ | ⟨_, hpoe, _, _⟩
      · exact hv
      · exact absurd (Recon.grpPO_ne_nil_iff.mpr hex) (not_not_intro hpoe)
      · exact absurd (Recon.grpPO_ne_nil_iff.mpr hex) (not_not_intro hpoe)
    · intro hnex hex
      rw [htr] at hnex hex
      rcases Recon.emit_shape he with ⟨_, hpone⟩ | ⟨hv, _, _⟩ | ⟨_, _, hshe, _⟩
      · exact absurd (Recon.grpPO_ne_nil_iff.mp hpone) hnex
      · exact hv
      · exact absurd (Recon.grpShip_ne_nil_iff.mpr hex) (not_not_intro hshe)
    · intro hnpo hnsh
      rw [htr] at hnpo hnsh
      rcases Recon.emit_shape he with ⟨_, hpone⟩ | ⟨_, _, hshne⟩ | ⟨hv, _, _, _⟩
      · exact absurd (Recon.grpPO_ne_nil_iff.mp hpone) hnpo
      · exact absurd (Recon.grpShip_ne_nil_iff.mp hshne) hnsh
      · exact hv
  · intro k hkne hpoEx _
    obtain ⟨r, hrpo, hrk⟩ := hpoEx
    have hrall : r ∈ po ++ ship ++ ups := by
      simp [List.mem_append]
      exact Or.inl hrpo
    have hmode : r.sourceMode = Recon.SourceMode.PO := hpo r hrpo
    constructor
    · rw [Recon.reconcile_map_tracking]
      exact Recon.mem_keysInOrder.mpr ⟨hkne, r, hrall, hrk⟩
    · intro d hd htr
      obtain ⟨k2, _, he⟩ := Recon.mem_reconcile.mp hd
      have : k2 = k := by rw [← Recon.emitForKey_tracking he, htr]
      subst this
      rcases Recon.emit_shape he with ⟨hv, _⟩ | ⟨_, hpoe, _⟩ | ⟨_, hpoe, _, _⟩
      · exact hv
      · exact absurd (Recon.grpPO_ne_nil_iff.mpr ⟨r, hrall, hrk, hmode⟩) (not_not_intro hpoe)
      · exact absurd (Recon.grpPO_ne_nil_iff.mpr ⟨r, hrall, hrk, hmode⟩) (not_not_intro hpoe)

/-- Fixture: a PO-file row carrying tracking 1Z999AA10123456784. -/
def poFix : Recon.UploadRow :=
  { row := 1, tracking := some "1Z999AA10123456784", poNumber := some "PO-100"
  , shipDocNumber := none, vendor := none, customer := none
  , date := some "2024-01-05", sourceMode := Recon.SourceMode.PO }

/-- Fixture: a ShipDocs-file row whose tracking normalizes to the same
key as `poFix`. -/
def shipFix : Recon.UploadRow :=
  { row := 1, tracking := some "1Z 999 AA1 012345 6784", poNumber := none
  , shipDocNumber := some "SD-9", vendor := none, customer := none
  , date := some "2024-01-07", sourceMode := Recon.SourceMode.ShipDocs }

/-- C2 witness: with the PO row and the ShipDocs row of the fixtures
sharing the key 1Z999AA10123456784, the key is emitted (once) by the
merge; the theorem is applied at that concrete input. -/
theorem crossFile_precedence_witness :
    "1Z999AA10123456784" ∈
      (Recon.reconcileByTrackingPreferPO [poFix] [shipFix] []).map (fun d => d.trackingUpload) :=
  (crossFile_precedence [poFix] [shipFix] [] (by decide) (by decide) (by decide)).2
    "1Z999AA10123456784" (by decide) (by decide) (by decide) |>.1

/-- C3: the cross-file merge emits exactly one result per distinct
non-empty normalized tracking number over all input rows: the emitted
key list is duplicate-free, and a key appears iff some input row
normalizes to it and it is non-empty. -/
theorem crossFile_dedup :
    ∀ (po ship ups : List Recon.UploadRow) (k : String),
      ((Recon.reconcileByTrackingPreferPO po ship ups).map (fun d => d.trackingUpload)).Nodup ∧
      (k ∈ (Recon.reconcileByTrackingPreferPO po ship ups).map (fun d => d.trackingUpload) ↔
        (k ≠ "" ∧ ∃ r, r ∈ po ++ ship ++ ups ∧ Recon.keyOf r = k)) := by
  intro po ship ups k
  rw [Recon.reconcile_map_tracking]
  exact ⟨Recon.nodup_keysInOrder _, Recon.mem_keysInOrder⟩

/-- C3 witness: three duplicate rows of one tracking key produce that
key in the merge's output; the theorem is applied at the concrete
input. -/
theorem crossFile_dedup_witness :
    "1Z999AA10123456784" ∈
      (Recon.reconcileByTrackingPreferPO [poFix, poFix] [shipFix] []).map
        (fun d => d.trackingUpload) :=
  (crossFile_dedup [poFix, poFix] [shipFix] [] "1Z999AA10123456784").2.mpr (by decide)

/-- C9: within the winning source of a tracking group the emitted
representative is the row with the lexicographically earliest date key
(stable sort head), empty or missing dates sorting before all
non-empty ones; the emitted DetailRow is built from that
representative. -/
theorem crossFile_tiebreak_earliest :
    ∀ (po ship ups : List Recon.UploadRow) (d : Recon.DetailRow),
      d ∈ Recon.reconcileByTrackingPreferPO po ship ups →
      Recon.winningGroup (po ++ ship ++ ups) d.trackingUpload ≠ [] ∧
      ∀ r, Recon.pickEarliest (Recon.winningGroup (po ++ ship ++ ups) d.trackingUpload) = some r →
        r ∈ Recon.winningGroup (po ++ ship ++ ups) d.trackingUpload ∧
        (∀ y ∈ Recon.winningGroup (po ++ ship ++ ups) d.trackingUpload,
           Recon.strLt (Recon.dateKey y) (Recon.dateKey r) = false) ∧
        (d.verdict = "MATCH_PO" →
           d = Recon.mkPODetail (po ++ ship ++ ups) d.trackingUpload r) ∧
        (d.verdict = "MATCH_SHIPDOCS" →
           d = Recon.mkShipDetail (po ++ ship ++ ups) d.trackingUpload r) ∧
        (d.verdict = "UNMATCHED_UPS" → d = Recon.mkUPSDetail d.trackingUpload r) := by
  intro po ship ups d hd
  rcases Recon.reconcile_detail_shape hd with ⟨r0, hp, hdd⟩ | ⟨hpoe, r0, hp, hdd⟩ |
    ⟨hpoe, hshe, r0, hp, hdd⟩
  · have hpone := Recon.pickEarliest_ne_none hp
    have hw : Recon.winningGroup (po ++ ship ++ ups) d.trackingUpload =
        Recon.grpPO (po ++ ship ++ ups) d.trackingUpload := by
      unfold Recon.winningGroup
      rw [if_pos hpone]
    rw [hw]
    refine ⟨hpone, ?_⟩
    intro r hr
    have hr0 : r = r0 := by
      rw [hp] at hr
      exact (Option.some.injEq _ _ ▸ hr).symm
    subst hr0
    refine ⟨Recon.pickEarliest_mem hr, Recon.pickEarliest_min hr, fun _ => hdd, ?_, ?_⟩
    · intro hv
      rw [hdd] at hv
      simp only [Recon.mkPODetail] at hv
      exact absurd hv (by decide)
    · intro hv
      rw [hdd] at hv
      simp only [Recon.mkPODetail] at hv
      exact absurd hv (by decide)
  · have hshne := Recon.pickEarliest_ne_none hp
    have hw : Recon.winningGroup (po ++ ship ++ ups) d.trackingUpload =
        Recon.grpShip (po ++ ship ++ ups) d.trackingUpload := by
      unfold Recon.winningGroup
      rw [if_neg (not_not_intro hpoe), if_pos hshne]
    rw [hw]
    refine ⟨hshne, ?_⟩
    intro r hr
    have hr0 : r = r0 := by
      rw [hp] at hr
      exact (Option.some.injEq _ _ ▸ hr).symm
    subst hr0
    refine ⟨Recon.pickEarliest_mem hr, Recon.pickEarliest_min hr, ?_, fun _ => hdd, ?_⟩
    · intro hv
      rw [hdd] at hv
      simp only [Recon.mkShipDetail] at hv
      exact absurd hv (by decide)
    · intro hv
      rw [hdd] at hv
      simp only [Recon.mkShipDetail] at hv
      exact absurd hv (by decide)
  · have hupne := Recon.pickEarliest_ne_none hp
    have hw : Recon.winningGroup (po ++ ship ++ ups) d.trackingUpload =
        Recon.grpUPS (po ++ ship ++ ups) d.trackingUpload := by
      unfold Recon.winningGroup
      rw [if_neg (not_not_intro hpoe), if_neg (not_not_intro hshe)]
    rw [hw]
    refine ⟨hupne, ?_⟩
    intro r hr
    have hr0 : r = r0 := by
      rw [hp] at hr
      exact (Option.some.injEq _ _ ▸ hr).symm
    subst hr0
    refine ⟨Recon.pickEarliest_mem hr, Recon.pickEarliest_min hr, ?_, ?_, fun _ => hdd⟩
    · intro hv
      rw [hdd] at hv
      simp only [Recon.mkUPSDetail] at hv
      exact absurd hv (by decide)
    · intro hv
      rw [hdd] at hv
      simp only [Recon.mkUPSDetail] at hv
      exact absurd hv (by decide)

/-- Fixture: a second PO row of the same tracking with a later date
than 2024-01-05, for the tie-break witness. -/
def poFixLate : Recon.UploadRow :=
  { row := 2, tracking := some "1Z999AA10123456784", poNumber := some "PO-200"
  , shipDocNumber := none, vendor := none, customer := none
  , date := some "2024-01-07", sourceMode := Recon.SourceMode.PO }

/-- C9 witness: with two PO rows dated 2024-01-07 and 2024-01-05 in
one group, the theorem applied at this input shows the later row's
date key is not below the representative's. -/
theorem crossFile_tiebreak_earliest_witness :
    Recon.strLt (Recon.dateKey poFixLate) (Recon.dateKey poFix) = false :=
  ((crossFile_tiebreak_earliest [poFixLate, poFix] [] []
      (Recon.mkPODetail [poFixLate, poFix] "1Z999AA10123456784" poFix)
      (by decide)).2 poFix (by decide)).2.1 poFixLate (by decide)

/-- C6 (amended): the displayed date of a cross-file group is the
winning representative's own date when truthy; otherwise it borrows
the first available date in row order from the UPS slot, then from the
ShipDocs slot (for a ShipDocs winner, from UPS only; a UPS winner
borrows nothing); and the verdict depends only on which slots are
inhabited, never on any date. -/
theorem crossFile_display_date :
    ∀ (po ship ups : List Recon.UploadRow) (d : Recon.DetailRow),
      d ∈ Recon.reconcileByTrackingPreferPO po ship ups →
      (d.verdict = "MATCH_PO" ↔ Recon.grpPO (po ++ ship ++ ups) d.trackingUpload ≠ []) ∧
      (d.verdict = "MATCH_SHIPDOCS" ↔
        (Recon.grpPO (po ++ ship ++ ups) d.trackingUpload = [] ∧
         Recon.grpShip (po ++ ship ++ ups) d.trackingUpload ≠ [])) ∧
      (d.verdict = "UNMATCHED_UPS" ↔
        (Recon.grpPO (po ++ ship ++ ups) d.trackingUpload = [] ∧
         Recon.grpShip (po ++ ship ++ ups) d.trackingUpload = [])) ∧
      (∀ r, Recon.pickEarliest (Recon.grpPO (po ++ ship ++ ups) d.trackingUpload) = some r →
         d.verdict = "MATCH_PO" →
         (jsTruthyO r.date = true → d.assertedDate = r.date) ∧
         (jsTruthyO r.date = false →
            d.assertedDate = jsOrO (Recon.firstDate (Recon.grpUPS (po ++ ship ++ ups) d.trackingUpload))
              (jsOrO (Recon.firstDate (Recon.grpShip (po ++ ship ++ ups) d.trackingUpload)) none))) ∧
      (∀ r, Recon.pickEarliest (Recon.grpShip (po ++ ship ++ ups) d.trackingUpload) = some r →
         d.verdict = "MATCH_SHIPDOCS" →
         (jsTruthyO r.date = true → d.assertedDate = r.date) ∧
         (jsTruthyO r.date = false →
            d.assertedDate = jsOrO (Recon.firstDate (Recon.grpUPS (po ++ ship ++ ups) d.trackingUpload)) none)) ∧
      (∀ r, Recon.pickEarliest (Recon.grpUPS (po ++ ship ++ ups) d.trackingUpload) = some r →
         d.verdict = "UNMATCHED_UPS" →
         (jsTruthyO r.date = true → d.assertedDate = r.date) ∧
         (jsTruthyO r.date = false → d.assertedDate = none)) := by
  intro po ship ups d hd
  rcases Recon.reconcile_detail_shape hd with ⟨r0, hp, hdd⟩ | ⟨hpoe, r0, hp, hdd⟩ |
    ⟨hpoe, hshe, r0, hp, hdd⟩
  · have hpone := Recon.pickEarliest_ne_none hp
    have hv : d.verdict = "MATCH_PO" := by rw [hdd]; rfl
    refine ⟨iff_of_true hv hpone, ?_, ?_, ?_, ?_, ?_⟩
    · refine iff_of_false ?_ ?_
      · rw [hv]; decide
      · rintro ⟨h1, _⟩; exact hpone h1
    · refine iff_of_false ?_ ?_
      · rw [hv]; decide
      · rintro ⟨h1, _⟩; exact hpone h1
    · intro r hr _
      have hr0 : r = r0 := by
        rw [hp] at hr
        exact (Option.some.injEq _ _ ▸ hr).symm
      subst hr0
      constructor
      · intro ht
        rw [hdd]
        simp [Recon.mkPODetail, jsOrO, ht]
      · intro ht
        rw [hdd]
        simp [Recon.mkPODetail, jsOrO, ht]
    · intro r _ hvv
      rw [hv] at hvv
      exact absurd hvv.symm (by decide)
    · intro r _ hvv
      rw [hv] at hvv
      exact absurd hvv.symm (by decide)
  · have hshne := Recon.pickEarliest_ne_none hp
    have hv : d.verdict = "MATCH_SHIPDOCS" := by rw [hdd]; rfl
    refine ⟨?_, iff_of_true hv ⟨hpoe, hshne⟩, ?_, ?_, ?_, ?_⟩
    · refine iff_of_false ?_ (not_not_intro hpoe)
      rw [hv]; decide
    · refine iff_of_false ?_ ?_
      · rw [hv]; decide
      · rintro ⟨_, h2⟩; exact hshne h2
    · intro r hr _
      rw [hpoe] at hr
      simp [Recon.pickEarliest] at hr
    · intro r hr _
      have hr0 : r = r0 := by
        rw [hp] at hr
        exact (Option.some.injEq _ _ ▸ hr).symm
      subst hr0
      constructor
      · intro ht
        rw [hdd]
        simp [Recon.mkShipDetail, jsOrO, ht]
      · intro ht
        rw [hdd]
        simp [Recon.mkShipDetail, jsOrO, ht]
    · intro r _ hvv
      rw [hv] at hvv
      exact absurd hvv.symm (by decide)
  · have hupne := Recon.pickEarliest_ne_none hp
    have hv : d.verdict = "UNMATCHED_UPS" := by rw [hdd]; rfl
    refine ⟨?_, ?_, iff_of_true hv ⟨hpoe, hshe⟩, ?_, ?_, ?_⟩
    · refine iff_of_false ?_ (not_not_intro hpoe)
      rw [hv]; decide
    · refine iff_of_false ?_ ?_
      · rw [hv]; decide
      · rintro ⟨_, h2⟩; exact h2 hshe
    · intro r hr _
      rw [hpoe] at hr
      simp [Recon.pickEarliest] at hr
    · intro r hr _
      rw [hshe] at hr
      simp [Recon.pickEarliest] at hr
    · intro r hr _
      have hr0 : r = r0 := by
        rw [hp] at hr
        exact (Option.some.injEq _ _ ▸ hr).symm
      subst hr0
      constructor
      · intro ht
        rw [hdd]
        simp [Recon.mkUPSDetail, jsOrO, ht]
      · intro ht
        rw [hdd]
        simp [Recon.mkUPSDetail, jsOrO, ht]

/-- Fixture: a PO row of key 1Z999AA10123456784 with no date. -/
def poFixNoDate : Recon.UploadRow :=
  { row := 1, tracking := some "1Z999AA10123456784", poNumber := some "PO-300"
  , shipDocNumber := none, vendor := none, customer := none
  , date := none, sourceMode := Recon.SourceMode.PO }

/-- Fixture: the first UPS row of the group, dated 2024-05-02. -/
def upsFixA : Recon.UploadRow :=
  { row := 1, tracking := some "1Z999AA10123456784", poNumber := none
  , shipDocNumber := none, vendor := none, customer := none
  , date := some "2024-05-02", sourceMode := Recon.SourceMode.UPS }

/-- Fixture: the second UPS row of the group, dated 2024-01-01 —
earlier than `upsFixA`, but later in row order. -/
def upsFixB : Recon.UploadRow :=
  { row := 2, tracking := some "1Z999AA10123456784", poNumber := none
  , shipDocNumber := none, vendor := none, customer := none
  , date := some "2024-01-01", sourceMode := Recon.SourceMode.UPS }

/-- C6 counterexample: the dateless PO winner borrows 2024-05-02, the
first UPS date in row order, although 2024-01-01 is available in the
same group and lexicographically strictly earlier — so the borrowed
date is not the earliest available one, as the claim states. -/
theorem crossFile_borrowed_date_not_earliest_cex :
    (Recon.reconcileByTrackingPreferPO [poFixNoDate] [] [upsFixA, upsFixB]).map
        (fun d => d.assertedDate) = [some "2024-05-02"] ∧
    upsFixB ∈ [upsFixA, upsFixB] ∧ upsFixB.date = some "2024-01-01" ∧
    Recon.strLt "2024-01-01" "2024-05-02" = true := by
  refine ⟨by decide, by decide, by decide, by decide⟩

/-- C6 witness: the theorem applied to the counterexample's input
yields the borrowed display date for the dateless PO winner. -/
theorem crossFile_display_date_witness :
    (Recon.mkPODetail [poFixNoDate, upsFixA, upsFixB] "1Z999AA10123456784" poFixNoDate).assertedDate =
      jsOrO (Recon.firstDate (Recon.grpUPS ([poFixNoDate] ++ [] ++ [upsFixA, upsFixB]) "1Z999AA10123456784"))
        (jsOrO (Recon.firstDate (Recon.grpShip ([poFixNoDate] ++ [] ++ [upsFixA, upsFixB]) "1Z999AA10123456784")) none) := by
  have h := (crossFile_display_date [poFixNoDate] [] [upsFixA, upsFixB]
      (Recon.mkPODetail [poFixNoDate, upsFixA, upsFixB] "1Z999AA10123456784" poFixNoDate)
      (by decide)).2.2.2.1 poFixNoDate (by decide) (by decide)
  exact h.2 (by decide)

/-- C10: a MATCH_PO group whose winning row has an empty or missing PO
number reports the literal placeholder "(missing PO#)" (and a
MATCH_SHIPDOCS group with a missing ship-doc number reports
"(missing ShipDoc#)"), never the empty string; UNMATCHED_UPS results
report the empty string. -/
theorem crossFile_missing_number_placeholder :
    ∀ (po ship ups : List Recon.UploadRow) (d : Recon.DetailRow),
      d ∈ Recon.reconcileByTrackingPreferPO po ship ups →
      (d.verdict = "UNMATCHED_UPS" → d.orderNumber = "") ∧
      (∀ r, Recon.pickEarliest (Recon.grpPO (po ++ ship ++ ups) d.trackingUpload) = some r →
         d.verdict = "MATCH_PO" →
         d.orderNumber ≠ "" ∧
         (jsTruthyO r.poNumber = false → d.orderNumber = "(missing PO#)") ∧
         (jsTruthyO r.poNumber = true → d.orderNumber = r.poNumber.getD "(missing PO#)")) ∧
      (∀ r, Recon.pickEarliest (Recon.grpShip (po ++ ship ++ ups) d.trackingUpload) = some r →
         d.verdict = "MATCH_SHIPDOCS" →
         d.orderNumber ≠ "" ∧
         (jsTruthyO r.shipDocNumber = false → d.orderNumber = "(missing ShipDoc#)") ∧
         (jsTruthyO r.shipDocNumber = true → d.orderNumber = r.shipDocNumber.getD "(missing ShipDoc#)")) := by
  intro po ship ups d hd
  rcases Recon.reconcile_detail_shape hd with ⟨r0, hp, hdd⟩ | ⟨hpoe, r0, hp, hdd⟩ |
    ⟨hpoe, hshe, r0, hp, hdd⟩
  · have hv : d.verdict = "MATCH_PO" := by rw [hdd]; rfl
    refine ⟨?_, ?_, ?_⟩
    · intro hvv
      rw [hv] at hvv
      exact absurd hvv.symm (by decide)
    · intro r hr _
      have hr0 : r = r0 := by
        rw [hp] at hr
        exact (Option.some.injEq _ _ ▸ hr).symm
      subst hr0
      refine ⟨?_, ?_, ?_⟩
      · rw [hdd]
        simp only [Recon.mkPODetail, jsOrStr]
        cases ht : jsTruthyO r.poNumber with
        | false => simp
        | true =>
          simp
          cases hn : r.poNumber with
          | none => rw [hn] at ht; simp [jsTruthyO] at ht
          | some s =>
            rw [hn] at ht
            simp [jsTruthyO] at ht
            simpa using ht
      · intro ht
        rw [hdd]
        simp [Recon.mkPODetail, jsOrStr, ht]
      · intro ht
        rw [hdd]
        simp [Recon.mkPODetail, jsOrStr, ht]
    · intro r hr hvv
      rw [hv] at hvv
      exact absurd hvv.symm (by decide)
  · have hv : d.verdict = "MATCH_SHIPDOCS" := by rw [hdd]; rfl
    refine ⟨?_, ?_, ?_⟩
    · intro hvv
      rw [hv] at hvv
      exact absurd hvv.symm (by decide)
    · intro r hr _
      rw [hpoe] at hr
      simp [Recon.pickEarliest] at hr
    · intro r hr _
      have hr0 : r = r0 := by
        rw [hp] at hr
        exact (Option.some.injEq _ _ ▸ hr).symm
      subst hr0
      refine ⟨?_, ?_, ?_⟩
      · rw [hdd]
        simp only [Recon.mkShipDetail, jsOrStr]
        cases ht : jsTruthyO r.shipDocNumber with
        | false => simp
        | true =>
          simp
          cases hn : r.shipDocNumber with
          | none => rw [hn] at ht; simp [jsTruthyO] at ht
          | some s =>
            rw [hn] at ht
            simp [jsTruthyO] at ht
            simpa using ht
      · intro ht
        rw [hdd]
        simp [Recon.mkShipDetail, jsOrStr, ht]
      · intro ht
        rw [hdd]
        simp [Recon.mkShipDetail, jsOrStr, ht]
  · have hv : d.verdict = "UNMATCHED_UPS" := by rw [hdd]; rfl
    refine ⟨?_, ?_, ?_⟩
    · intro _
      rw [hdd]
      rfl
    · intro r hr _
      rw [hpoe] at hr
      simp [Recon.pickEarliest] at hr
    · intro r hr _
      rw [hshe] at hr
      simp [Recon.pickEarliest] at hr

/-- Fixture: a PO-file row with a tracking number but no PO number. -/
def poFixNoNumber : Recon.UploadRow :=
  { row := 1, tracking := some "1Z999AA10123456784", poNumber := none
  , shipDocNumber := none, vendor := none, customer := none
  , date := none, sourceMode := Recon.SourceMode.PO }

/-- C10 witness: the theorem applied to a group whose PO winner has no
PO number yields the placeholder. -/
theorem crossFile_missing_number_placeholder_witness :
    (Recon.mkPODetail [poFixNoNumber] "1Z999AA10123456784" poFixNoNumber).orderNumber =
      "(missing PO#)" := by
  have h := (crossFile_missing_number_placeholder [poFixNoNumber] [] []
      (Recon.mkPODetail [poFixNoNumber] "1Z999AA10123456784" poFixNoNumber)
      (by decide)).2.1 poFixNoNumber (by decide) (by decide)
  exact h.2.1 (by decide)

/-- C4: the verdict scorer ranks OK=3 > MISMATCH=2 > NOT_FOUND=1 >
ERROR=0; the first-evaluated (declared/preferred) interpretation is
kept unless the other one's verdict ranks strictly higher, so an exact
tie keeps the first-evaluated mode as chosenMode. -/
theorem score_choosePick :
    ∀ (rp ro : Verify.ModeResult),
      (Verify.SCORE "OK" = 3 ∧ Verify.SCORE "MISMATCH" = 2 ∧
       Verify.SCORE "NOT_FOUND" = 1 ∧ Verify.SCORE "ERROR" = 0) ∧
      (Verify.SCORE rp.verdict < Verify.SCORE ro.verdict → Verify.choosePick rp ro = ro) ∧
      (Verify.SCORE ro.verdict ≤ Verify.SCORE rp.verdict → Verify.choosePick rp ro = rp) ∧
      (Verify.SCORE rp.verdict = Verify.SCORE ro.verdict →
        (Verify.choosePick rp ro).mode = rp.mode) := by
  intro rp ro
  refine ⟨⟨rfl, rfl, rfl, rfl⟩, ?_, ?_, ?_⟩
  · intro h
    unfold Verify.choosePick
    rw [if_pos h]
  · intro h
    unfold Verify.choosePick
    rw [if_neg (not_lt_of_ge h)]
  · intro h
    unfold Verify.choosePick
    rw [if_neg (not_lt_of_ge (le_of_eq h.symm))]

/-- Fixture: a PO interpretation that came back NOT_FOUND. -/
def resPONF : Verify.ModeResult :=
  { mode := "PO", verdict := "NOT_FOUND", reason := "", dayDelta := none }

/-- Fixture: an SO interpretation that came back OK. -/
def resSOOK : Verify.ModeResult :=
  { mode := "SO", verdict := "OK", reason := "", dayDelta := none }

/-- C4 witness: the spec scenario — PO NOT_FOUND against SO OK picks
the SO interpretation; the theorem is applied at that input. -/
theorem score_choosePick_witness : Verify.choosePick resPONF resSOOK = resSOOK :=
  (score_choosePick resPONF resSOOK).2.1 (by decide)

/-- C1 (amended): `reconcileOne` wraps the order lookup in
`catch(() => null)`, so a rejected `getOrder` and a `getOrder` that
resolves to null produce identical results for that interpretation —
the two failure classes are not distinguishable — and under the spec's
decision table the common verdict is NOT_FOUND, not ERROR. -/
theorem lookupFailure_indistinguishable :
    ∀ (dec : Verify.DecideInput → Verify.DecideOutput) (c1 c2 : Verify.OTClient)
      (mode : String) (r : Verify.Row) (e : String),
      jsTruthyO r.orderNumber = true →
      c1.getOrder mode (r.orderNumber.getD "") = Except.error e →
      c2.getOrder mode (r.orderNumber.getD "") = Except.ok none →
      Verify.reconcileOne c1 dec mode r = Verify.reconcileOne c2 dec mode r ∧
      (Verify.reconcileOne c1 Verify.decideSpec mode r).verdict = "NOT_FOUND" := by
  intro dec c1 c2 mode r e ht h1 h2
  have hl1 : Verify.lookupForRow c1 mode r =
      { orderExists := false, packages := [], partyOT := none } := by
    simp [Verify.lookupForRow, ht, h1, Verify.exVal]
  have hl2 : Verify.lookupForRow c2 mode r =
      { orderExists := false, packages := [], partyOT := none } := by
    simp [Verify.lookupForRow, ht, h2, Verify.exVal]
  constructor
  · unfold Verify.reconcileOne
    rw [hl1, hl2]
  · unfold Verify.reconcileOne
    rw [hl1]
    rfl

/-- Fixture: a truth-source client every call of which rejects, as on
a network or auth failure. -/
def errClient : Verify.OTClient :=
  { getOrder := fun _ _ => Except.error "network"
  , getActivity := fun _ _ => Except.error "network"
  , findByTracking := fun _ _ _ => Except.error "network"
  , extractParty := fun _ => none }

/-- Fixture: a truth-source client that resolves every lookup to
null — the order genuinely does not exist. -/
def nfClient : Verify.OTClient :=
  { getOrder := fun _ _ => Except.ok none
  , getActivity := fun _ _ => Except.ok none
  , findByTracking := fun _ _ _ => Except.ok none
  , extractParty := fun _ => none }

/-- Fixture: an uploaded row carrying the order number PO-100. -/
def rowPO100 : Verify.Row :=
  { orderNumber := some "PO-100", partyName := none, trackingNumber := none
  , assertedDate := none, sourceMode := some "PO" }

/-- C1 counterexample: with every truth-source call rejecting, the row
with order number PO-100 resolves to NOT_FOUND — not to ERROR as the
claim states — so a failed lookup is not distinguishable from a
missing order. -/
theorem lookupFailure_verdict_not_error_cex :
    (Verify.reconcileOne errClient Verify.decideSpec "PO" rowPO100).verdict = "NOT_FOUND" ∧
    (Verify.reconcileOne errClient Verify.decideSpec "PO" rowPO100).verdict ≠ "ERROR" := by
  exact ⟨by decide, by decide⟩

/-- C1 witness: the theorem applied to the failing client and the
null-resolving client at the concrete row. -/
theorem lookupFailure_indistinguishable_witness :
    Verify.reconcileOne errClient Verify.decideSpec "PO" rowPO100 =
      Verify.reconcileOne nfClient Verify.decideSpec "PO" rowPO100 ∧
    (Verify.reconcileOne errClient Verify.decideSpec "PO" rowPO100).verdict = "NOT_FOUND" :=
  lookupFailure_indistinguishable Verify.decideSpec errClient nfClient "PO" rowPO100
    "network" (by decide) rfl rfl

/-- C7 (amended): for a row with only a tracking number, the value
handed to the truth source's activity search is the uploaded value
upper-cased with whitespace and hyphens removed (`trackingQuery`) —
not stripped of every non-alphanumeric character — and orderExists is
true iff the search returned at least one package. -/
theorem tracking_lookup_normalization :
    ∀ (client : Verify.OTClient) (mode : String) (r : Verify.Row),
      jsTruthyO r.orderNumber = false →
      jsTruthyO r.trackingNumber = true →
      ((Verify.lookupForRow client mode r).packages =
        (match Verify.exVal (client.findByTracking mode
            (Verify.trackingQuery (r.trackingNumber.getD "")) r.assertedDate) with
         | some a => Verify.extractPackages (some a)
         | none => []) ∧
       ((Verify.lookupForRow client mode r).orderExists = true ↔
         (Verify.lookupForRow client mode r).packages ≠ [])) := by
  intro client mode r h0 h1
  have hl : Verify.lookupForRow client mode r =
      (let packages :=
        match Verify.exVal (client.findByTracking mode
            (Verify.trackingQuery (r.trackingNumber.getD "")) r.assertedDate) with
        | some a => Verify.extractPackages (some a)
        | none => []
       { orderExists := decide (0 < packages.length), packages := packages
       , partyOT := client.extractParty (Verify.exVal (client.findByTracking mode
            (Verify.trackingQuery (r.trackingNumber.getD "")) r.assertedDate)) }) := by
    unfold Verify.lookupForRow
    rw [if_neg (by simp [h0]), if_pos h1]
  rw [hl]
  refine ⟨rfl, ?_⟩
  cases hv : Verify.exVal (client.findByTracking mode
      (Verify.trackingQuery (r.trackingNumber.getD "")) r.assertedDate) with
  | none => simp
  | some a =>
    simp only [decide_eq_true_eq]
    constructor
    · intro h hnil
      rw [hnil] at h
      simp at h
    · intro h
      have := List.length_pos_of_ne_nil h
      simpa using this

/-- Fixture: an activity payload with one package whose tracking is
the fully stripped key. -/
def actFix : Verify.Activity :=
  { docs := [{ date := some "2024-01-05", shipDate := none, receiptDate := none
             , packages := [{ trackingNumber := some "1Z999AA10123456784", tracking := none }] }] }

/-- Fixture: a probe client that answers the tracking search only for
the fully stripped key 1Z999AA10123456784. -/
def probeClient : Verify.OTClient :=
  { getOrder := fun _ _ => Except.ok none
  , getActivity := fun _ _ => Except.ok none
  , findByTracking := fun _ t _ =>
      if t == "1Z999AA10123456784" then Except.ok (some actFix) else Except.ok none
  , extractParty := fun _ => none }

/-- Fixture: a row whose uploaded tracking contains a dot. -/
def rowDotTracking : Verify.Row :=
  { orderNumber := none, partyName := none
  , trackingNumber := some "1z.999aa10123456784", assertedDate := none, sourceMode := none }

/-- Fixture: a row whose uploaded tracking contains hyphens only. -/
def rowHyphenTracking : Verify.Row :=
  { orderNumber := none, partyName := none
  , trackingNumber := some "1z-999aa10123456784", assertedDate := none, sourceMode := none }

/-- C7 counterexample: the code keeps the dot ("1Z.999AA10123456784")
while the spec's normalization strips it, so a probe truth source that
holds the package under the stripped key is missed by the dotted row
(orderExists false) though the claim says the search runs under the
stripped key; the hyphenated row, whose hyphen the code does strip, is
found. -/
theorem trackingQuery_keeps_nonalnum_cex :
    Verify.trackingQuery "1z.999aa10123456784" = "1Z.999AA10123456784" ∧
    Verify.specNormTracking "1z.999aa10123456784" = "1Z999AA10123456784" ∧
    (Verify.lookupForRow probeClient "PO" rowDotTracking).orderExists = false ∧
    (Verify.lookupForRow probeClient "PO" rowHyphenTracking).orderExists = true := by
  exact ⟨by decide, by decide, by decide, by decide⟩

/-- C7 witness: the theorem applied to the probe client and the
hyphenated row. -/
theorem tracking_lookup_normalization_witness :
    (Verify.lookupForRow probeClient "PO" rowHyphenTracking).orderExists = true ↔
      (Verify.lookupForRow probeClient "PO" rowHyphenTracking).packages ≠ [] :=
  (tracking_lookup_normalization probeClient "PO" rowHyphenTracking
    (by decide) (by decide)).2

/-- The per-index map of the POST loop serializes each row's asserted
date as a plain string. -/
theorem reconcileRouteAux_dates (client : Verify.OTClient)
    (dec : Verify.DecideInput → Verify.DecideOutput) :
    ∀ (rows : List Verify.Row) (i : Nat),
      (Verify.reconcileRouteAux client dec i rows).map (fun d => d.assertedDate) =
        rows.map (fun r => r.assertedDate.getD "") := by
  intro rows
  induction rows with
  | nil => intro i; rfl
  | cons r rs ih =>
    intro i
    simp only [Verify.reconcileRouteAux, List.map_cons, ih]
    rfl

/-- C8 (amended): in the truth-source verification route every
serialized assertedDate is a string — the row's day string, or the
empty string when the date is unknown — never a null literal; the
cross-file merge route, by contrast, serializes a missing date as
null (see the counterexample). -/
theorem route_assertedDate_string :
    ∀ (client : Verify.OTClient) (dec : Verify.DecideInput → Verify.DecideOutput)
      (rows : List Verify.Row),
      (Verify.reconcileRoute client dec rows).map (fun d => d.assertedDate) =
        rows.map (fun r => r.assertedDate.getD "") := by
  intro client dec rows
  exact reconcileRouteAux_dates client dec rows 0

/-- Fixture: a UPS-file row with a tracking number and no date. -/
def upsFixNoDate : Recon.UploadRow :=
  { row := 1, tracking := some "1Z999AA10123456784", poNumber := none
  , shipDocNumber := none, vendor := none, customer := none
  , date := none, sourceMode := Recon.SourceMode.UPS }

/-- C8 counterexample: the cross-file merge serializes the dateless
UPS group's assertedDate as none — the JSON null literal — not as the
empty string the claim requires of every serialized response. -/
theorem crossFile_assertedDate_null_cex :
    (Recon.reconcileByTrackingPreferPO [] [] [upsFixNoDate]).map (fun d => d.assertedDate) =
      [none] := by
  decide

/-- C8 witness: the theorem applied at a concrete client and row list;
the dateless row serializes as the empty string. -/
theorem route_assertedDate_string_witness :
    (Verify.reconcileRoute errClient Verify.decideSpec [rowPO100]).map
        (fun d => d.assertedDate) = [""] := by
  rw [route_assertedDate_string]
  decide

/-- A row the parse loop emits passed the identifier guard. -/
theorem rowToUpload_ids {dp : String → Option String}
    {ohs ths phs dhs : List String} {raw : Recon.RawRow} {u : Parse.UploadRow}
    (h : Parse.rowToUpload dp ohs ths phs dhs raw = some u) :
    jsTruthyO u.orderNumber = true ∨ jsTruthyO u.trackingNumber = true := by
  simp only [Parse.rowToUpload] at h
  by_cases hc : (!(jsTruthyO (Parse.rowFields dp ohs ths phs dhs raw).orderNumber) &&
      !(jsTruthyO (Parse.rowFields dp ohs ths phs dhs raw).trackingNumber)) = true
  · rw [if_pos hc] at h
    exact absurd h (by simp)
  · rw [if_neg hc] at h
    have hu : Parse.rowFields dp ohs ths phs dhs raw = u := by
      injection h
    rw [hu] at hc
    cases ha : jsTruthyO u.orderNumber with
    | true => exact Or.inl rfl
    | false =>
      cases hb : jsTruthyO u.trackingNumber with
      | true => exact Or.inr rfl
      | false =>
        exfalso
        apply hc
        rw [ha, hb]
        rfl

/-- C5 (amended): in the truth-source parser (lib/parse.ts) every
emitted row has a truthy orderNumber or trackingNumber, and a row with
neither identifier is skipped silently — appending such a row to the
input changes neither the output rows nor the error behaviour. The
cross-file variant's parseUploadToRows, by contrast, emits every input
row even when it has no identifier at all (see the counterexample). -/
theorem parse_identifier_invariant :
    (∀ (dp : String → Option String) (rows : List Recon.RawRow) (out : List Parse.UploadRow),
       Parse.parseFileRows dp rows = Except.ok out →
       ∀ u ∈ out, jsTruthyO u.orderNumber = true ∨ jsTruthyO u.trackingNumber = true) ∧
    (∀ (dp : String → Option String) (r0 : Recon.RawRow) (rest : List Recon.RawRow)
       (junk : Recon.RawRow),
       Parse.rowMapper dp (r0.map (fun p => p.1)) junk = none →
       Parse.parseFileRows dp (r0 :: rest ++ [junk]) = Parse.parseFileRows dp (r0 :: rest)) := by
  constructor
  · intro dp rows out h u hu
    cases rows with
    | nil =>
      simp only [Parse.parseFileRows] at h
      injection h with h
      rw [← h] at hu
      exact absurd hu (List.not_mem_nil u)
    | cons r0 rest =>
      simp only [Parse.parseFileRows] at h
      by_cases he : ((r0 :: rest).filterMap
          (Parse.rowMapper dp (r0.map (fun p => p.1)))).isEmpty = true
      · rw [if_pos he] at h
        exact absurd h (by simp)
      · rw [if_neg he] at h
        injection h with h
        rw [← h] at hu
        obtain ⟨raw, _, hm⟩ := List.mem_filterMap.mp hu
        exact rowToUpload_ids hm
  · intro dp r0 rest junk hj
    have h2 : List.filterMap (Parse.rowMapper dp (r0.map (fun p => p.1))) [junk] = [] := by
      simp [hj]
    have key : List.filterMap (Parse.rowMapper dp (r0.map (fun p => p.1))) (r0 :: (rest ++ [junk])) =
        List.filterMap (Parse.rowMapper dp (r0.map (fun p => p.1))) (r0 :: rest) := by
      rw [show r0 :: (rest ++ [junk]) = (r0 :: rest) ++ [junk] from rfl, List.filterMap_append,
        h2, List.append_nil]
    have hcons : ∀ rs : List Recon.RawRow,
        Parse.parseFileRows dp (r0 :: rs) =
          (if ((r0 :: rs).filterMap (Parse.rowMapper dp (r0.map (fun p => p.1)))).isEmpty then
            Except.error
              ("Missing required column(s): orderNumber or trackingNumber. Found headers: "
                ++ strJoin " | " (r0.map (fun p => p.1)))
          else Except.ok ((r0 :: rs).filterMap (Parse.rowMapper dp (r0.map (fun p => p.1))))) :=
      fun _ => rfl
    rw [List.cons_append, hcons, hcons, key]

/-- C5 counterexample: the cross-file parser emits a row for the input
line whose only cell is ("foo", "bar") — no tracking, no PO number, no
ShipDoc number — instead of dropping it, so the claimed invariant that
every parsed UploadRow carries an identifier fails there. -/
theorem parseUpload_keeps_identifierless_row_cex :
    Recon.parseUploadToRows (fun _ => none) [[("foo", "bar")]] Recon.SourceMode.PO =
      [{ row := 1, tracking := none, poNumber := none, shipDocNumber := none
       , vendor := none, customer := none, date := none
       , sourceMode := Recon.SourceMode.PO }] := by
  decide

/-- C5 witness: the theorem applied at a concrete file — appending the
identifierless row changes nothing. -/
theorem parse_identifier_invariant_witness :
    Parse.parseFileRows (fun _ => none) [[("po number", "PO-1")], [("x", "y")]] =
      Parse.parseFileRows (fun _ => none) [[("po number", "PO-1")]] :=
  parse_identifier_invariant.2 (fun _ => none) [("po number", "PO-1")] [] [("x", "y")]
    (by decide)
